import Mathlib

/-!
Verification development for the music-library scanner and catalog layer of a
personal local-music server (backend/music_scanner.py and backend/database.py).

Strings are modelled as `List Char` (Python `str`), bytes as `Nat` values
below 256, and machine words as `Nat` reduced modulo `2 ^ 32` where overflow
matters.  File-system and tag-reading effects are modelled by an explicit
environment (`ScanEnv`); database state is an explicit record of tables
(`DB`).  Every definition is executable so that concrete runs can be checked
by `decide` or `rfl`.
-/

/-! ### Python string primitives -/

/-- Whitespace characters stripped by Python `str.strip()` (ASCII subset). -/
def isPySpace (c : Char) : Bool :=
  c = ' ' || c = '\t' || c = '\n' || c = '\r' || c = '\x0b' || c = '\x0c'

/-- Python `str.strip()`: drop leading and trailing whitespace. -/
def pyStrip (s : List Char) : List Char :=
  ((s.dropWhile isPySpace).reverse.dropWhile isPySpace).reverse

/-- Python `str.lower()` (ASCII letters; the strings the scanner matches
against are ASCII). -/
def lowerStr (s : List Char) : List Char :=
  s.map Char.toLower

/-- Auxiliary scanner for `findSub`: leftmost index at which `pat` occurs. -/
def findSubAux (pat : List Char) : List Char → Nat → Option Nat
  | [], i => if pat.isPrefixOf ([] : List Char) then some i else none
  | c :: rest, i =>
    if pat.isPrefixOf (c :: rest) then some i else findSubAux pat rest (i + 1)

/-- Python `str.find(sub)` restricted to successful results: the least index
at which `pat` occurs in `s`, or `none`. -/
def findSub (s pat : List Char) : Option Nat :=
  findSubAux pat s 0

/-- Python `sub in s` substring test. -/
def containsSub (s pat : List Char) : Bool :=
  (findSub s pat).isSome

/-- Fuel-driven worker for `removeAllSub` (structural recursion so that the
kernel can evaluate it). -/
def removeAllSubAux (pat : List Char) : Nat → List Char → List Char
  | _, [] => []
  | 0, s => s
  | fuel + 1, c :: rest =>
    if pat ≠ [] && pat.isPrefixOf (c :: rest) then
      removeAllSubAux pat fuel ((c :: rest).drop pat.length)
    else
      c :: removeAllSubAux pat fuel rest

/-- Python `s.replace(pat, "")`: delete every non-overlapping occurrence of
`pat` in `s`, scanning left to right. -/
def removeAllSub (pat s : List Char) : List Char :=
  removeAllSubAux pat s.length s

/-- Word counter for `len(s.split())`: number of maximal nonblank runs. -/
def wordCountAux : Bool → List Char → Nat
  | _, [] => 0
  | inWord, c :: rest =>
    if isPySpace c then wordCountAux false rest
    else (if inWord then 0 else 1) + wordCountAux true rest

/-- Python `len(s.split())`. -/
def wordCount (s : List Char) : Nat :=
  wordCountAux false s

/-- Digit-run parser used by `pyInt`: accumulates decimal digits, allowing a
single underscore between digits (Python numeric-literal rule for `int`). -/
def digitsUAux : Nat → List Char → Option Nat
  | acc, [] => some acc
  | acc, [c] => if c.isDigit then some (acc * 10 + (c.toNat - 48)) else none
  | acc, c :: d :: rest =>
    if c.isDigit then digitsUAux (acc * 10 + (c.toNat - 48)) (d :: rest)
    else if c = '_' && d.isDigit then
      digitsUAux (acc * 10 + (d.toNat - 48)) rest
    else none

/-- Nonempty digit sequence (underscore separators allowed) to its value. -/
def digitsU : List Char → Option Nat
  | [] => none
  | c :: rest => if c.isDigit then digitsUAux (c.toNat - 48) rest else none

/-- Python `int(s)` on ASCII decimal strings: optional surrounding
whitespace, optional sign, then digits (with underscore separators).
`none` models the `ValueError` the scanner catches. -/
def pyInt (s : List Char) : Option Int :=
  match pyStrip s with
  | [] => none
  | c :: rest =>
    if c = '+' then (digitsU rest).map (fun n => (n : Int))
    else if c = '-' then (digitsU rest).map (fun n => -(n : Int))
    else (digitsU (c :: rest)).map (fun n => (n : Int))

/-! ### UTF-8 and MD5 (`hashlib.md5(text.encode()).hexdigest()`) -/

/-- UTF-8 encoding of one character (byte values as `Nat`). -/
def utf8Char (c : Char) : List Nat :=
  let n := c.toNat
  if n < 128 then [n]
  else if n < 2048 then [192 + n / 64, 128 + n % 64]
  else if n < 65536 then [224 + n / 4096, 128 + n / 64 % 64, 128 + n % 64]
  else [240 + n / 262144, 128 + n / 4096 % 64, 128 + n / 64 % 64, 128 + n % 64]

/-- UTF-8 encoding of a string, as Python `str.encode()`. -/
def utf8Encode (s : List Char) : List Nat :=
  s.foldr (fun c acc => utf8Char c ++ acc) []

/-- Reduction modulo `2 ^ 32`. -/
def w32 (x : Nat) : Nat := x % 4294967296

/-- 32-bit left rotation (input assumed below `2 ^ 32`). -/
def rotl32 (x n : Nat) : Nat :=
  (x * 2 ^ n + x / 2 ^ (32 - n)) % 4294967296

/-- 32-bit bitwise complement (input assumed below `2 ^ 32`). -/
def not32 (x : Nat) : Nat := 4294967295 - x % 4294967296

/-- MD5 sine-table constants `K`. -/
def md5K : List Nat :=
  [0xd76aa478, 0xe8c7b756, 0x242070db, 0xc1bdceee,
   0xf57c0faf, 0x4787c62a, 0xa8304613, 0xfd469501,
   0x698098d8, 0x8b44f7af, 0xffff5bb1, 0x895cd7be,
   0x6b901122, 0xfd987193, 0xa679438e, 0x49b40821,
   0xf61e2562, 0xc040b340, 0x265e5a51, 0xe9b6c7aa,
   0xd62f105d, 0x02441453, 0xd8a1e681, 0xe7d3fbc8,
   0x21e1cde6, 0xc33707d6, 0xf4d50d87, 0x455a14ed,
   0xa9e3e905, 0xfcefa3f8, 0x676f02d9, 0x8d2a4c8a,
   0xfffa3942, 0x8771f681, 0x6d9d6122, 0xfde5380c,
   0xa4beea44, 0x4bdecfa9, 0xf6bb4b60, 0xbebfbc70,
   0x289b7ec6, 0xeaa127fa, 0xd4ef3085, 0x04881d05,
   0xd9d4d039, 0xe6db99e5, 0x1fa27cf8, 0xc4ac5665,
   0xf4292244, 0x432aff97, 0xab9423a7, 0xfc93a039,
   0x655b59c3, 0x8f0ccc92, 0xffeff47d, 0x85845dd1,
   0x6fa87e4f, 0xfe2ce6e0, 0xa3014314, 0x4e0811a1,
   0xf7537e82, 0xbd3af235, 0x2ad7d2bb, 0xeb86d391]

/-- MD5 per-round left-rotation amounts. -/
def md5S : List Nat :=
  [7, 12, 17, 22, 7, 12, 17, 22, 7, 12, 17, 22, 7, 12, 17, 22,
   5, 9, 14, 20, 5, 9, 14, 20, 5, 9, 14, 20, 5, 9, 14, 20,
   4, 11, 16, 23, 4, 11, 16, 23, 4, 11, 16, 23, 4, 11, 16, 23,
   6, 10, 15, 21, 6, 10, 15, 21, 6, 10, 15, 21, 6, 10, 15, 21]

/-- Little-endian byte decomposition (`n` bytes). -/
def toLEBytes (x n : Nat) : List Nat :=
  (List.range n).map (fun i => x / 2 ^ (8 * i) % 256)

/-- Little-endian byte recomposition. -/
def fromLEBytes (bs : List Nat) : Nat :=
  bs.foldr (fun b acc => acc * 256 + b) 0

/-- MD5 padding: `0x80`, zeros to 56 mod 64, then the 64-bit bit length. -/
def md5Pad (msg : List Nat) : List Nat :=
  let len := msg.length
  let z := (120 - (len + 1) % 64) % 64
  msg ++ [128] ++ List.replicate z 0 ++ toLEBytes (8 * len) 8

/-- Split a byte list into 64-byte chunks (fuel-driven, structural). -/
def chunks64Aux : Nat → List Nat → List (List Nat)
  | _, [] => []
  | 0, _ => []
  | fuel + 1, c :: rest =>
    (c :: rest).take 64 :: chunks64Aux fuel ((c :: rest).drop 64)

/-- Split a byte list into 64-byte chunks. -/
def chunks64 (l : List Nat) : List (List Nat) :=
  chunks64Aux l.length l

/-- One MD5 round step on the state `(a, b, c, d)`. -/
def md5Step (M : List Nat) (st : Nat × Nat × Nat × Nat) (i : Nat) :
    Nat × Nat × Nat × Nat :=
  match st with
  | (a, b, c, d) =>
    let fg : Nat × Nat :=
      if i < 16 then ((b &&& c) ||| (not32 b &&& d), i)
      else if i < 32 then ((d &&& b) ||| (not32 d &&& c), (5 * i + 1) % 16)
      else if i < 48 then (b ^^^ c ^^^ d, (3 * i + 5) % 16)
      else (c ^^^ (b ||| not32 d), (7 * i) % 16)
    let tmp := w32 (a + fg.1 + md5K.getD i 0 + M.getD fg.2 0)
    (d, w32 (b + rotl32 tmp (md5S.getD i 0)), b, c)

/-- Process one 64-byte chunk. -/
def md5Chunk (st : Nat × Nat × Nat × Nat) (chunk : List Nat) :
    Nat × Nat × Nat × Nat :=
  let M := (List.range 16).map (fun j => fromLEBytes ((chunk.drop (4 * j)).take 4))
  match st, (List.range 64).foldl (md5Step M) st with
  | (a0, b0, c0, d0), (a, b, c, d) =>
    (w32 (a + a0), w32 (b + b0), w32 (c + c0), w32 (d + d0))

/-- MD5 digest of a byte list, as 16 bytes. -/
def md5Bytes (msg : List Nat) : List Nat :=
  match (chunks64 (md5Pad msg)).foldl md5Chunk
      (0x67452301, 0xefcdab89, 0x98badcfe, 0x10325476) with
  | (a, b, c, d) => toLEBytes a 4 ++ toLEBytes b 4 ++ toLEBytes c 4 ++ toLEBytes d 4

/-- Lowercase hex digit. -/
def hexDigit (n : Nat) : Char :=
  if n < 10 then Char.ofNat (48 + n) else Char.ofNat (87 + n)

/-- Lowercase hex rendition of a byte list (`hexdigest()`). -/
def bytesToHex (bs : List Nat) : List Char :=
  bs.foldr (fun b acc => hexDigit (b / 16) :: hexDigit (b % 16) :: acc) []

/-- `MusicScanner._generate_id`:
`hashlib.md5(text.encode()).hexdigest()[:16]`. -/
def generate_id (text : List Char) : List Char :=
  (bytesToHex (md5Bytes (utf8Encode text))).take 16

/-! ### Filename heuristic parser (`MusicScanner._parse_filename`) -/

/-- Result of the filename heuristic parser (`{'artist': ..., 'title': ...}`). -/
structure ParseResult where
  artist : Option (List Char)
  title : Option (List Char)
  deriving DecidableEq, Repr

/-- The separator `" - "`. -/
def sepDash : List Char := " - ".toList

/-- The noise suffixes the parser removes, in source order. -/
def suffixes_to_remove : List (List Char) :=
  ["(Official Video)", "(Official Music Video)", "(Lyrics)",
   "(Official Audio)", "(Audio)", "[Official Video]", "[Lyrics]",
   "(Lyric Video)", "(Music Video)", "Official Video", "Lyrics"].map String.toList

/-- One pass of the suffix-removal loop: if `suffix` occurs case-insensitively
in `clean`, delete its first occurrence (positions in the lowercased copy
coincide with positions in the original since lowering is per character). -/
def remove_suffix (clean suffix : List Char) : List Char :=
  match findSub (lowerStr clean) (lowerStr suffix) with
  | none => clean
  | some idx => clean.take idx ++ clean.drop (idx + suffix.length)

/-- The cleaned filename: noise suffixes removed, then stripped. -/
def clean_name (filename : List Char) : List Char :=
  pyStrip (suffixes_to_remove.foldl remove_suffix filename)

/-- Python `s.split(sep, 1)`: at most one split, at the first occurrence. -/
def split_once (s sep : List Char) : List (List Char) :=
  match findSub s sep with
  | none => [s]
  | some i => [s.take i, s.drop (i + sep.length)]

/-- `MusicScanner._parse_filename`, translated statement by statement
(including the redundant word-count branch of the source). -/
def parse_filename (filename : List Char) : ParseResult :=
  let clean := clean_name filename
  if containsSub clean sepDash then
    match split_once clean sepDash with
    | [p1, p2] =>
      let part1 := pyStrip p1
      let part2 := pyStrip p2
      let part1_words := wordCount part1
      let part2_words := wordCount part2
      if part1_words ≤ 3 && decide (part1_words < part2_words) then
        ⟨some part1, some part2⟩
      else
        ⟨some part1, some part2⟩
    | _ => ⟨none, none⟩
  else ⟨none, none⟩

/-- Modelled from the spec: the simplified unconditional split-and-assign
parser of section 4.2 / 9 (left of the first `" - "` is the artist, right is
the title, no word-count branch), used as the refinement target for the
heuristic parser. -/
def parse_filename_simple (filename : List Char) : ParseResult :=
  let clean := clean_name filename
  match findSub clean sepDash with
  | some i =>
    ⟨some (pyStrip (clean.take i)), some (pyStrip (clean.drop (i + sepDash.length)))⟩
  | none => ⟨none, none⟩

/-! ### Tag helpers -/

/-- `MusicScanner._get_tag`: stringified raw tag value to a stripped,
nonempty value (`none` for an absent, empty or whitespace-only tag). -/
def get_tag_val (raw : Option (List Char)) : Option (List Char) :=
  match raw with
  | none => none
  | some v =>
    let t := pyStrip v
    if t = [] then none else some t

/-- Python truthiness of an optional string. -/
def truthy : Option (List Char) → Bool
  | none => false
  | some s => !(s.isEmpty)

/-- `MusicScanner._get_track_number`: `int(track.split('/')[0])`,
exceptions giving `none`. -/
def get_track_number (raw : Option (List Char)) : Option Int :=
  match get_tag_val raw with
  | none => none
  | some t => pyInt (t.takeWhile (fun c => c ≠ '/'))

/-- `MusicScanner._get_year`: `int(date[:4])`, exceptions giving `none`. -/
def get_year (raw : Option (List Char)) : Option Int :=
  match get_tag_val raw with
  | none => none
  | some d => pyInt (d.take 4)

/-- The channel-detector keyword list of `process_file`. -/
def channel_keywords : List (List Char) :=
  ["music", "official", "vevo", "records", "entertainment", "media",
   "channel", "video", "lyrics"].map String.toList

/-- `any(keyword in artist.lower() for keyword in channel_keywords)`. -/
def looks_like_channel (artist : List Char) : Bool :=
  channel_keywords.any (fun k => containsSub (lowerStr artist) k)

/-! ### Files, scan environment and `process_file` -/

/-- A scanned audio file, as the path components the scanner uses:
the path is `parent/(stem ++ ext)`. -/
structure MusicFile where
  parent : List Char
  stem : List Char
  ext : List Char
  deriving DecidableEq, Repr, Inhabited

/-- `str(parent / name)` for a plain relative path. -/
def joinPath (parent name : List Char) : List Char :=
  parent ++ '/' :: name

/-- `str(file_path)`. -/
def pathStr (f : MusicFile) : List Char :=
  joinPath f.parent (f.stem ++ f.ext)

/-- Raw (stringified, unstripped) tag values of an audio file as read by
mutagen easy tags. -/
structure Tags where
  title : Option (List Char) := none
  artist : Option (List Char) := none
  album : Option (List Char) := none
  genre : Option (List Char) := none
  tracknumber : Option (List Char) := none
  date : Option (List Char) := none
  deriving DecidableEq, Repr

/-- Outcome of `MutagenFile(str(file_path), easy=True)`: an exception
(`corrupt`), a `None` result (`unreadable`), or a tag record plus the
duration in milliseconds (`int(audio.info.length * 1000)`, 0 when absent). -/
inductive AudioFile where
  | corrupt : AudioFile
  | unreadable : AudioFile
  | ok (tags : Tags) (durationMs : Nat) : AudioFile
  deriving DecidableEq, Repr

/-- The file-system and decoder environment a scan runs against:
tag reading per file, the sibling `lyrics.lrc` content per directory
(`none` covers both a missing file and a read error), existing cover
thumbnails per album id, the embedded picture per file (`none` covers both
no embedded art and a tag-read error), and whether PIL decode/resize/save
succeeds on given picture bytes. -/
structure ScanEnv where
  audio : MusicFile → AudioFile
  lyricsFile : List Char → Option (List Char)
  coverExists : List Char → Bool
  picture : MusicFile → Option (List Nat)
  decodeOk : List Nat → Bool

/-- `MusicScanner._extract_album_art`: reuse an existing thumbnail, else
decode and save the embedded picture; every failure path yields `none`
(the source catches all exceptions at this boundary). -/
def extract_album_art (env : ScanEnv) (f : MusicFile) (album_id : List Char) :
    Option (List Char) :=
  if env.coverExists album_id then
    some ("/covers/".toList ++ album_id ++ ".jpg".toList)
  else
    match env.picture f with
    | some dat =>
      if env.decodeOk dat then
        some ("/covers/".toList ++ album_id ++ ".jpg".toList)
      else none
    | none => none

/-- The column values `Database.add_track` is called with for one file. -/
structure TrackArgs where
  track_id : List Char
  title : List Char
  artist : List Char
  artist_id : List Char
  album : List Char
  album_id : List Char
  duration_ms : Nat
  track_number : Option Int
  year : Option Int
  genre : Option (List Char)
  file_path : List Char
  image_path : Option (List Char)
  lyrics : Option (List Char)
  deriving DecidableEq, Repr, Inhabited

/-- The metadata-derivation core of `MusicScanner.process_file` (lines
62-142): tag extraction, filename fallback, channel-keyword override, final
literal defaults, derived numbers and identifiers.  `none` models the early
return for an unreadable file and the per-file exception handler for a
corrupt one. -/
def track_args (env : ScanEnv) (f : MusicFile) : Option TrackArgs :=
  match env.audio f with
  | AudioFile.corrupt => none
  | AudioFile.unreadable => none
  | AudioFile.ok tags durationMs =>
    let title0 := get_tag_val tags.title
    let artist0 := get_tag_val tags.artist
    let album0 := get_tag_val tags.album
    let filename := f.stem
    let parsed := parse_filename filename
    let title1 := if !(truthy title0) || !(truthy artist0) then
        (if truthy title0 then title0 else parsed.title) else title0
    let artist1 := if !(truthy title0) || !(truthy artist0) then
        (if truthy artist0 then artist0 else parsed.artist) else artist0
    let artist2 :=
      if truthy artist1 && looks_like_channel (artist1.getD []) then
        (if truthy parsed.artist then parsed.artist else artist1)
      else artist1
    let title := if truthy title1 then title1.getD [] else filename
    let artist := if truthy artist2 then artist2.getD []
      else "Unknown Artist".toList
    let album := if truthy album0 then album0.getD []
      else "Unknown Album".toList
    let track_number := get_track_number tags.tracknumber
    let year := get_year tags.date
    let genre := get_tag_val tags.genre
    let track_id := generate_id (pathStr f)
    let artist_id := generate_id artist
    let album_id := generate_id (artist ++ '-' :: album)
    let image_path := extract_album_art env f album_id
    let lyrics := env.lyricsFile f.parent
    some
      { track_id := track_id, title := title, artist := artist,
        artist_id := artist_id, album := album, album_id := album_id,
        duration_ms := durationMs, track_number := track_number,
        year := year, genre := genre, file_path := pathStr f,
        image_path := image_path, lyrics := lyrics }

/-! ### Database model (`Database`) -/

/-- A row of the `tracks` table (the scanner-relevant columns; timestamp
columns are outside the model).  Unlisted columns take their schema
defaults on insert. -/
structure TrackRow where
  id : List Char
  title : List Char
  artist : List Char
  artist_id : List Char
  album : List Char
  album_id : List Char
  duration_ms : Nat
  track_number : Option Int
  year : Option Int
  genre : Option (List Char)
  file_path : List Char
  image_path : Option (List Char)
  lyrics : Option (List Char)
  is_saved : Nat
  play_count : Nat
  has_enhanced_version : Nat
  enhanced_file_path : Option (List Char)
  deriving DecidableEq, Repr

/-- A row of the `artists` table. -/
structure ArtistRow where
  id : List Char
  name : List Char
  total_albums : Nat
  total_tracks : Nat
  image_path : Option (List Char)
  deriving DecidableEq, Repr

/-- A row of the `albums` table. -/
structure AlbumRow where
  id : List Char
  name : List Char
  artist : List Char
  artist_id : List Char
  year : Option Int
  total_tracks : Nat
  image_path : Option (List Char)
  is_saved : Nat
  deriving DecidableEq, Repr

/-- The database state the scanner touches. -/
structure DB where
  tracks : List TrackRow
  artists : List ArtistRow
  albums : List AlbumRow
  deriving DecidableEq, Repr

/-- The empty database. -/
def emptyDB : DB := ⟨[], [], []⟩

/-- The track row inserted by the `INSERT OR REPLACE INTO tracks` statement
(unlisted columns get their schema defaults). -/
def newTrackRow (a : TrackArgs) : TrackRow :=
  { id := a.track_id, title := a.title, artist := a.artist,
    artist_id := a.artist_id, album := a.album, album_id := a.album_id,
    duration_ms := a.duration_ms, track_number := a.track_number,
    year := a.year, genre := a.genre, file_path := a.file_path,
    image_path := a.image_path, lyrics := a.lyrics,
    is_saved := 0, play_count := 0, has_enhanced_version := 0,
    enhanced_file_path := none }

/-- `INSERT OR REPLACE` conflict resolution on the `tracks` table: every
row conflicting on a unique constraint (`id` primary key or the `file_path`
unique index) is deleted, then the new row is inserted. -/
def insert_or_replace_track (ts : List TrackRow) (a : TrackArgs) : List TrackRow :=
  ts.filter (fun r => !(r.id == a.track_id || r.file_path == a.file_path))
    ++ [newTrackRow a]

/-- Statement 1 of `add_track`: the track upsert. -/
def st1 (a : TrackArgs) (db : DB) : DB :=
  { db with tracks := insert_or_replace_track db.tracks a }

/-- The artist row inserted by `INSERT OR IGNORE INTO artists`. -/
def newArtistRow (a : TrackArgs) : ArtistRow :=
  { id := a.artist_id, name := a.artist, total_albums := 0,
    total_tracks := 0, image_path := a.image_path }

/-- `INSERT OR IGNORE` on `artists`: keep the table unchanged when a row
with the same primary key exists. -/
def insert_ignore_artist (l : List ArtistRow) (a : TrackArgs) : List ArtistRow :=
  if l.any (fun r => r.id == a.artist_id) then l else l ++ [newArtistRow a]

/-- Statement 2 of `add_track`: the artist insert. -/
def st2 (a : TrackArgs) (db : DB) : DB :=
  { db with artists := insert_ignore_artist db.artists a }

/-- The album row inserted by `INSERT OR IGNORE INTO albums`. -/
def newAlbumRow (a : TrackArgs) : AlbumRow :=
  { id := a.album_id, name := a.album, artist := a.artist,
    artist_id := a.artist_id, year := a.year, total_tracks := 0,
    image_path := a.image_path, is_saved := 0 }

/-- `INSERT OR IGNORE` on `albums`. -/
def insert_ignore_album (l : List AlbumRow) (a : TrackArgs) : List AlbumRow :=
  if l.any (fun r => r.id == a.album_id) then l else l ++ [newAlbumRow a]

/-- Statement 3 of `add_track`: the album insert. -/
def st3 (a : TrackArgs) (db : DB) : DB :=
  { db with albums := insert_ignore_album db.albums a }

/-- The album-count update applied to one `albums` row. -/
def albumCountUpdate (a : TrackArgs) (ts : List TrackRow) (r : AlbumRow) : AlbumRow :=
  if r.id == a.album_id then
    { r with total_tracks := (ts.filter (fun t => t.album_id == a.album_id)).length }
  else r

/-- Statement 4 of `add_track`: `UPDATE albums SET total_tracks = (SELECT
COUNT(*) FROM tracks WHERE album_id = ?) WHERE id = ?`. -/
def st4 (a : TrackArgs) (db : DB) : DB :=
  { db with albums := db.albums.map (albumCountUpdate a db.tracks) }

/-- The artist-count update applied to one `artists` row
(`COUNT(DISTINCT album_id)` over that artist's tracks). -/
def artistCountUpdate (a : TrackArgs) (ts : List TrackRow) (r : ArtistRow) : ArtistRow :=
  if r.id == a.artist_id then
    { r with
        total_tracks := (ts.filter (fun t => t.artist_id == a.artist_id)).length,
        total_albums :=
          ((ts.filter (fun t => t.artist_id == a.artist_id)).map
            (fun t => t.album_id)).dedup.length }
  else r

/-- Statement 5 of `add_track`: the artist count update. -/
def st5 (a : TrackArgs) (db : DB) : DB :=
  { db with artists := db.artists.map (artistCountUpdate a db.tracks) }

/-- The five SQL statements of `Database.add_track`, in source order. -/
def add_track_stmts (a : TrackArgs) : List (DB → DB) :=
  [st1 a, st2 a, st3 a, st4 a, st5 a]

/-- The committed result of a fully successful `add_track` call. -/
def addTrackF (db : DB) (a : TrackArgs) : DB :=
  (add_track_stmts a).foldl (fun d s => s d) db

/-- Transaction runner for `add_track`: statements execute in order against
the pending state; if statement number `i` raises (`failAt = some i`) the
handler rolls the connection back, leaving the committed state, and the
call returns normally; otherwise the final pending state is committed. -/
def runTxn : List (DB → DB) → Option Nat → Nat → DB → DB → DB
  | [], _, _, _, pending => pending
  | s :: rest, failAt, i, committed, pending =>
    if failAt = some i then committed
    else runTxn rest failAt (i + 1) committed (s pending)

/-- `Database.add_track` with an explicit fault model: `failAt = some i`
means the `i`-th statement raises and the `except` branch (rollback, log,
normal return) runs. -/
def add_track (failAt : Option Nat) (db : DB) (a : TrackArgs) : DB :=
  runTxn (add_track_stmts a) failAt 0 db db

/-! ### Scan orchestration (`MusicScanner.scan_folder`, enhanced linking) -/

/-- The `_enhanced` stem marker. -/
def enhancedMarker : List Char := "_enhanced".toList

/-- Whether a file is an enhanced variant (`'_enhanced' in file_path.stem`). -/
def isEnhancedFile (f : MusicFile) : Bool :=
  containsSub f.stem enhancedMarker

/-- The enhanced-lookup key for an enhanced file:
`str(file_path.parent / file_path.stem.replace('_enhanced', ''))`. -/
def enhKey (f : MusicFile) : List Char :=
  joinPath f.parent (removeAllSub enhancedMarker f.stem)

/-- The lookup key for a standard file:
`str(file_path.parent / file_path.stem)`. -/
def stdKey (f : MusicFile) : List Char :=
  joinPath f.parent f.stem

/-- Dictionary insert with overwrite (later scan hits shadow earlier ones,
as for a Python dict). -/
def dictInsert (m : List (List Char × MusicFile)) (k : List Char)
    (v : MusicFile) : List (List Char × MusicFile) :=
  (k, v) :: m

/-- Dictionary lookup (`enhanced_files.get(base_key)`). -/
def dictGet (m : List (List Char × MusicFile)) (k : List Char) :
    Option MusicFile :=
  (m.find? (fun p => p.1 == k)).map (fun p => p.2)

/-- The `enhanced_files` dictionary built by the partition loop of
`scan_folder`. -/
def buildEnhancedMap (files : List MusicFile) :
    List (List Char × MusicFile) :=
  files.foldl
    (fun m f => if isEnhancedFile f then dictInsert m (enhKey f) f else m) []

/-- The enhanced-variant update of `process_file` (lines 145-153):
`UPDATE tracks SET has_enhanced_version = 1, enhanced_file_path = ? WHERE
id = ?`. -/
def updateEnhanced (db : DB) (tid epath : List Char) : DB :=
  { db with tracks := db.tracks.map (fun r =>
      if r.id == tid then
        { r with has_enhanced_version := 1, enhanced_file_path := some epath }
      else r) }

/-- One `process_file(file_path, enhanced_path)` call against the database:
derive the record (nothing happens for a corrupt or unreadable file),
upsert it, then attach the enhanced sibling when one was registered (the
sibling exists on disk, having been enumerated by the walk). -/
def process_file (env : ScanEnv) (enh : Option MusicFile) (db : DB)
    (f : MusicFile) : DB :=
  match track_args env f with
  | none => db
  | some a =>
    let db1 := addTrackF db a
    match enh with
    | none => db1
    | some e => updateEnhanced db1 a.track_id (pathStr e)

/-- `MusicScanner.scan_folder` over an enumerated file list: partition into
standard and enhanced files, then process every standard file with its
registered enhanced sibling; a per-file exception leaves the database
untouched for that file and the walk continues. -/
def scan_folder (env : ScanEnv) (db : DB) (files : List MusicFile) : DB :=
  let enhanced := buildEnhancedMap files
  let standard := files.filter (fun f => !(isEnhancedFile f))
  standard.foldl (fun d f => process_file env (dictGet enhanced (stdKey f)) d f) db

/-! ### Spec-side reference functions -/

/-- Modelled from the spec: "year (first 4 digits of a date tag)" — the
integer formed by the first four digit characters of the date string, when
it has at least four digits. -/
def specYearFirstDigits (s : List Char) : Option Int :=
  let ds := (s.filter Char.isDigit).take 4
  if ds.length = 4 then
    some ((ds.foldl (fun acc c => acc * 10 + (c.toNat - 48)) 0 : Nat) : Int)
  else none

/-! ### Helper lemmas -/

theorem dropWhile_of_forall_not {p : Char → Bool} :
    ∀ l : List Char, (∀ c ∈ l, p c = false) → l.dropWhile p = l := by
  intro l h
  induction l with
  | nil => rfl
  | cons c rest ih =>
    have hc := h c (by simp)
    simp [List.dropWhile, hc]

theorem pyStrip_of_no_space (l : List Char)
    (h : ∀ c ∈ l, isPySpace c = false) : pyStrip l = l := by
  unfold pyStrip
  rw [dropWhile_of_forall_not l h,
    dropWhile_of_forall_not l.reverse (fun c hc => h c (List.mem_reverse.mp hc)),
    List.reverse_reverse]

theorem isDigit_not_space (c : Char) (h : c.isDigit = true) :
    isPySpace c = false := by
  cases hps : isPySpace c
  · rfl
  · exfalso
    unfold isPySpace at hps
    simp only [Bool.or_eq_true, decide_eq_true_eq] at hps
    rcases hps with (((((h1 | h2) | h3) | h4) | h5) | h6) <;> subst_eqs

theorem digitsUAux_all_digits :
    ∀ l : List Char, (∀ c ∈ l, c.isDigit = true) → ∀ acc : Nat,
      digitsUAux acc l =
        some (l.foldl (fun a c => a * 10 + (c.toNat - 48)) acc) := by
  intro l
  induction l with
  | nil => intro _ acc; rfl
  | cons c rest ih =>
    intro h acc
    have hc : c.isDigit = true := h c (by simp)
    cases rest with
    | nil => simp [digitsUAux, hc]
    | cons d rest2 =>
      have hrest : ∀ x ∈ d :: rest2, x.isDigit = true :=
        fun x hx => h x (by simp [hx])
      simp [digitsUAux, hc, ih hrest]

theorem pyInt_all_digits (l : List Char) (hne : l ≠ [])
    (h : ∀ c ∈ l, c.isDigit = true) :
    pyInt l =
      some ((l.foldl (fun a c => a * 10 + (c.toNat - 48)) 0 : Nat) : Int) := by
  unfold pyInt
  rw [pyStrip_of_no_space l (fun c hc => isDigit_not_space c (h c hc))]
  cases l with
  | nil => exact absurd rfl hne
  | cons c rest =>
    have hc : c.isDigit = true := h c (by simp)
    have hplus : ¬(c = '+') := by
      intro he; subst he; exact absurd hc (by decide)
    have hminus : ¬(c = '-') := by
      intro he; subst he; exact absurd hc (by decide)
    have hrest : ∀ x ∈ rest, x.isDigit = true := fun x hx => h x (by simp [hx])
    simp only [if_neg hplus, if_neg hminus, digitsU, if_pos hc,
      digitsUAux_all_digits rest hrest]
    simp [List.foldl]

/-! ### Claims about the filename parser -/

/-- C7: the filename heuristic parser applied to the stem
"Artist Name - Song Title (Official Video)" returns artist "Artist Name"
and title "Song Title", the noise phrase being removed case-insensitively
before the split on the first " - ". -/
theorem parse_filename_official_video :
    parse_filename ("Artist Name - Song Title (Official Video)".toList) =
      ⟨some ("Artist Name".toList), some ("Song Title".toList)⟩ := by decide

/-- C2 counterexample: on the stem "hello" the cleaned string contains no
" - " separator and the parser returns title = none, not the whole
string, refuting the claimed `title = wholeString` output. -/
theorem parse_filename_no_separator_counterexample :
    containsSub (clean_name ("hello".toList)) sepDash = false ∧
    (parse_filename ("hello".toList)).title = none ∧
    ¬((parse_filename ("hello".toList)).title = some ("hello".toList)) := by
  decide

/-- C2 amended: when the cleaned stem contains no " - " separator the
parser returns artist = none and title = none; the whole-string title is
supplied afterwards by the caller, whose final fallback puts the stem into
the catalog record's title field. -/
theorem parse_filename_no_separator :
    (∀ s, containsSub (clean_name s) sepDash = false →
      parse_filename s = ⟨none, none⟩) ∧
    (∀ (env : ScanEnv) (f : MusicFile) (tags : Tags) (d : Nat),
      env.audio f = AudioFile.ok tags d →
      get_tag_val tags.title = none →
      containsSub (clean_name f.stem) sepDash = false →
      Option.map TrackArgs.title (track_args env f) = some f.stem) := by
  have hparse : ∀ s, containsSub (clean_name s) sepDash = false →
      parse_filename s = ⟨none, none⟩ := by
    intro s h
    unfold parse_filename
    simp [h]
  refine ⟨hparse, ?_⟩
  intro env f tags d henv htitle hsep
  have hp := hparse f.stem hsep
  simp [track_args, henv, htitle, hp, truthy]

/-- C2 witness: the amended statement at the concrete stem "hello" and a
concrete environment whose file has no title tag. -/
theorem parse_filename_no_separator_witness :
    parse_filename ("hello".toList) = ⟨none, none⟩ ∧
    Option.map TrackArgs.title
        (track_args
          ⟨fun _ => AudioFile.ok {} 0, fun _ => none, fun _ => false,
            fun _ => none, fun _ => false⟩
          ⟨"m".toList, "hello".toList, ".mp3".toList⟩) =
      some ("hello".toList) :=
  ⟨parse_filename_no_separator.1 ("hello".toList) (by decide),
   parse_filename_no_separator.2
    ⟨fun _ => AudioFile.ok {} 0, fun _ => none, fun _ => false,
      fun _ => none, fun _ => false⟩
    ⟨"m".toList, "hello".toList, ".mp3".toList⟩ {} 0 rfl rfl (by decide)⟩

/-- C3: on every stem whose cleaned string contains " - ", both arms of the
word-count tie-break produce the same assignment - the stripped part
before the first " - " is the artist and the stripped remainder is the
title - and the heuristic parser is extensionally equal to the simplified
unconditional split-and-assign parser. -/
theorem parse_filename_branch_agreement (s : List Char) :
    parse_filename s = parse_filename_simple s ∧
    (containsSub (clean_name s) sepDash = true →
      parse_filename s =
        ⟨some (pyStrip ((clean_name s).take
            ((findSub (clean_name s) sepDash).getD 0))),
          some (pyStrip ((clean_name s).drop
            ((findSub (clean_name s) sepDash).getD 0 + sepDash.length)))⟩) := by
  unfold parse_filename parse_filename_simple containsSub split_once
  cases h : findSub (clean_name s) sepDash with
  | none => simp [h]
  | some i => simp [h]

/-- C3 witness: the branch-agreement conclusion at the concrete stem
"A - B and C". -/
theorem parse_filename_branch_agreement_witness :
    containsSub (clean_name ("A - B and C".toList)) sepDash = true ∧
    parse_filename ("A - B and C".toList) =
      ⟨some (pyStrip ((clean_name ("A - B and C".toList)).take
          ((findSub (clean_name ("A - B and C".toList)) sepDash).getD 0))),
        some (pyStrip ((clean_name ("A - B and C".toList)).drop
          ((findSub (clean_name ("A - B and C".toList)) sepDash).getD 0 +
            sepDash.length)))⟩ :=
  ⟨by decide,
   (parse_filename_branch_agreement ("A - B and C".toList)).2 (by decide)⟩

/-! ### Claims about derived fields -/

/-- C9 counterexample: for the date tag "20-01-01" the code computes
`int("20-0")`, which raises, so the derived year is none - while the first
four digits of the tag form 2001, refuting the first-4-digits reading. -/
theorem get_year_counterexample :
    get_year (some ("20-01-01".toList)) = none ∧
    specYearFirstDigits ("20-01-01".toList) = some 2001 := by decide

/-- C9 amended: the derived year is Python `int` applied to the first 4
characters of the (stripped) date tag - equal to the integer they form
whenever those characters are all digits (e.g. date "2020-01-01" yields
2020) - and none when that parse fails. -/
theorem get_year_first_four_chars (raw : Option (List Char)) (d : List Char)
    (hd : get_tag_val raw = some d)
    (hlen : 4 ≤ d.length)
    (hdig : ∀ c ∈ d.take 4, c.isDigit = true) :
    get_year raw =
      some (((d.take 4).foldl (fun a c => a * 10 + (c.toNat - 48)) 0 : Nat) : Int) := by
  unfold get_year
  rw [hd]
  refine pyInt_all_digits (d.take 4) ?_ hdig
  intro he
  have : (d.take 4).length = 4 := by
    rw [List.length_take]
    omega
  rw [he] at this
  simp at this

/-- C9 witness: the amended statement at the concrete date tag
"2020-01-01", whose derived year is 2020. -/
theorem get_year_first_four_chars_witness :
    get_tag_val (some ("2020-01-01".toList)) = some ("2020-01-01".toList) ∧
    get_year (some ("2020-01-01".toList)) = some 2020 := by
  refine ⟨by decide, ?_⟩
  have h := get_year_first_four_chars (some ("2020-01-01".toList))
    ("2020-01-01".toList) (by decide) (by decide) (by decide)
  rw [h]
  decide

/-- C8: for every environment, file and album identifier the album-art
extractor is a total function returning either the relative URL
"/covers/albumId.jpg" or none; an existing thumbnail is answered with the
URL before any picture lookup or decode (first write wins), and a missing
embedded picture or a failed decode/save yields none. -/
theorem extract_album_art_contract (env : ScanEnv) (f : MusicFile)
    (aid : List Char) :
    (extract_album_art env f aid =
        some ("/covers/".toList ++ aid ++ ".jpg".toList) ∨
      extract_album_art env f aid = none) ∧
    (env.coverExists aid = true →
      extract_album_art env f aid =
        some ("/covers/".toList ++ aid ++ ".jpg".toList)) ∧
    (env.coverExists aid = false → env.picture f = none →
      extract_album_art env f aid = none) ∧
    (∀ dat, env.coverExists aid = false → env.picture f = some dat →
      env.decodeOk dat = false → extract_album_art env f aid = none) := by
  unfold extract_album_art
  refine ⟨?_, ?_, ?_, ?_⟩
  · cases hc : env.coverExists aid
    · cases hp : env.picture f
      · right; simp
      · rename_i dat
        cases hdk : env.decodeOk dat
        · right; simp [hdk]
        · left; simp [hdk]
    · left; simp
  · intro hc; simp [hc]
  · intro hc hp; simp [hc, hp]
  · intro dat hc hp hdk; simp [hc, hp, hdk]

/-- C8 witness: the contract instantiated in three concrete environments -
thumbnail already present, no embedded picture, and picture present but
decode failing. -/
theorem extract_album_art_contract_witness :
    extract_album_art
        ⟨fun _ => AudioFile.unreadable, fun _ => none, fun _ => true,
          fun _ => some [1], fun _ => false⟩
        ⟨"m".toList, "t".toList, ".mp3".toList⟩ ("al".toList) =
      some ("/covers/".toList ++ "al".toList ++ ".jpg".toList) ∧
    extract_album_art
        ⟨fun _ => AudioFile.unreadable, fun _ => none, fun _ => false,
          fun _ => none, fun _ => true⟩
        ⟨"m".toList, "t".toList, ".mp3".toList⟩ ("al".toList) = none ∧
    extract_album_art
        ⟨fun _ => AudioFile.unreadable, fun _ => none, fun _ => false,
          fun _ => some [1], fun _ => false⟩
        ⟨"m".toList, "t".toList, ".mp3".toList⟩ ("al".toList) = none :=
  ⟨(extract_album_art_contract _ _ _).2.1 rfl,
   (extract_album_art_contract _ _ _).2.2.1 rfl rfl,
   (extract_album_art_contract _ _ _).2.2.2 [1] rfl rfl rfl⟩

/-! ### Claims about the database layer -/

theorem runTxn_dichotomy :
    ∀ (stmts : List (DB → DB)) (failAt : Option Nat) (i : Nat)
      (committed pending : DB),
      runTxn stmts failAt i committed pending =
          stmts.foldl (fun d s => s d) pending ∨
        runTxn stmts failAt i committed pending = committed := by
  intro stmts
  induction stmts with
  | nil => intro _ _ _ _; left; rfl
  | cons s rest ih =>
    intro failAt i committed pending
    by_cases h : failAt = some i
    · right; simp [runTxn, h]
    · rcases ih failAt (i + 1) committed (s pending) with h2 | h2
      · left; simpa [runTxn, h] using h2
      · right; simpa [runTxn, h] using h2

/-- C10: `Database.add_track` is atomic and non-propagating: whatever
statement (if any) raises, the call returns normally and the resulting
database is either the full five-statement commit or exactly the state
before the call (rollback). -/
theorem add_track_atomic (failAt : Option Nat) (db : DB) (a : TrackArgs) :
    add_track failAt db a = addTrackF db a ∨ add_track failAt db a = db := by
  unfold add_track addTrackF
  exact runTxn_dichotomy _ failAt 0 db db

theorem DB.ext2 (x y : DB) (ht : x.tracks = y.tracks)
    (ha : x.artists = y.artists) (hb : x.albums = y.albums) : x = y := by
  cases x; cases y; simp_all

theorem tracks_addTrackF (db : DB) (a : TrackArgs) :
    (addTrackF db a).tracks = insert_or_replace_track db.tracks a := rfl

theorem artists_addTrackF (db : DB) (a : TrackArgs) :
    (addTrackF db a).artists =
      (insert_ignore_artist db.artists a).map
        (artistCountUpdate a (insert_or_replace_track db.tracks a)) := rfl

theorem albums_addTrackF (db : DB) (a : TrackArgs) :
    (addTrackF db a).albums =
      (insert_ignore_album db.albums a).map
        (albumCountUpdate a (insert_or_replace_track db.tracks a)) := rfl

theorem upsert_track_idem (ts : List TrackRow) (a : TrackArgs) :
    insert_or_replace_track (insert_or_replace_track ts a) a =
      insert_or_replace_track ts a := by
  unfold insert_or_replace_track
  simp [List.filter_append, List.filter_filter, newTrackRow, Bool.and_self]

theorem upsert_track_count_one (ts : List TrackRow) (a : TrackArgs) :
    ((insert_or_replace_track ts a).filter
      (fun r => r.id == a.track_id)).length = 1 := by
  unfold insert_or_replace_track
  rw [List.filter_append]
  have h1 : (ts.filter (fun r =>
      !(r.id == a.track_id || r.file_path == a.file_path))).filter
        (fun r => r.id == a.track_id) = [] := by
    rw [List.filter_filter]
    refine List.filter_eq_nil_iff.mpr ?_
    intro r _
    cases hr : r.id == a.track_id <;> simp [hr]
  rw [h1]
  simp [newTrackRow]

theorem artistCountUpdate_id (a : TrackArgs) (ts : List TrackRow)
    (r : ArtistRow) : (artistCountUpdate a ts r).id = r.id := by
  unfold artistCountUpdate
  split <;> rfl

theorem artistCountUpdate_idem (a : TrackArgs) (ts : List TrackRow)
    (r : ArtistRow) :
    artistCountUpdate a ts (artistCountUpdate a ts r) =
      artistCountUpdate a ts r := by
  unfold artistCountUpdate
  by_cases h : (r.id == a.artist_id) = true
  · simp [h]
  · simp [h]

theorem albumCountUpdate_id (a : TrackArgs) (ts : List TrackRow)
    (r : AlbumRow) : (albumCountUpdate a ts r).id = r.id := by
  unfold albumCountUpdate
  split <;> rfl

theorem albumCountUpdate_idem (a : TrackArgs) (ts : List TrackRow)
    (r : AlbumRow) :
    albumCountUpdate a ts (albumCountUpdate a ts r) =
      albumCountUpdate a ts r := by
  unfold albumCountUpdate
  by_cases h : (r.id == a.album_id) = true
  · simp [h]
  · simp [h]

theorem any_id_map_artist (l : List ArtistRow) (a : TrackArgs)
    (ts : List TrackRow) (x : List Char) :
    ((l.map (artistCountUpdate a ts)).any (fun r => r.id == x)) =
      l.any (fun r => r.id == x) := by
  rw [List.any_map]
  congr 1
  funext r
  simp [Function.comp, artistCountUpdate_id]

theorem any_id_map_album (l : List AlbumRow) (a : TrackArgs)
    (ts : List TrackRow) (x : List Char) :
    ((l.map (albumCountUpdate a ts)).any (fun r => r.id == x)) =
      l.any (fun r => r.id == x) := by
  rw [List.any_map]
  congr 1
  funext r
  simp [Function.comp, albumCountUpdate_id]

theorem insert_ignore_artist_any (l : List ArtistRow) (a : TrackArgs) :
    (insert_ignore_artist l a).any (fun r => r.id == a.artist_id) = true := by
  unfold insert_ignore_artist
  split
  · assumption
  · simp [List.any_append, newArtistRow]

theorem insert_ignore_album_any (l : List AlbumRow) (a : TrackArgs) :
    (insert_ignore_album l a).any (fun r => r.id == a.album_id) = true := by
  unfold insert_ignore_album
  split
  · assumption
  · simp [List.any_append, newAlbumRow]

theorem insert_ignore_artist_of_any (l : List ArtistRow) (a : TrackArgs)
    (h : l.any (fun r => r.id == a.artist_id) = true) :
    insert_ignore_artist l a = l := by
  unfold insert_ignore_artist
  rw [if_pos h]

theorem insert_ignore_album_of_any (l : List AlbumRow) (a : TrackArgs)
    (h : l.any (fun r => r.id == a.album_id) = true) :
    insert_ignore_album l a = l := by
  unfold insert_ignore_album
  rw [if_pos h]

theorem addTrackF_idem (db : DB) (a : TrackArgs) :
    addTrackF (addTrackF db a) a = addTrackF db a := by
  refine DB.ext2 _ _ ?_ ?_ ?_
  · simp only [tracks_addTrackF]
    exact upsert_track_idem db.tracks a
  · simp only [artists_addTrackF, tracks_addTrackF]
    rw [upsert_track_idem]
    rw [insert_ignore_artist_of_any _ a
      (by rw [any_id_map_artist]; exact insert_ignore_artist_any db.artists a)]
    rw [List.map_map]
    congr 1
    funext r
    simp only [Function.comp_apply]
    exact artistCountUpdate_idem a _ r
  · simp only [albums_addTrackF, tracks_addTrackF]
    rw [upsert_track_idem]
    rw [insert_ignore_album_of_any _ a
      (by rw [any_id_map_album]; exact insert_ignore_album_any db.albums a)]
    rw [List.map_map]
    congr 1
    funext r
    simp only [Function.comp_apply]
    exact albumCountUpdate_idem a _ r

/-- C1: re-scanning is idempotent per file - with the same path and the
same tag environment the derived record is the same, the track, artist and
album identifiers are each the content hash of their input string, and
upserting the record a second time replaces the row keyed by the track
identifier (leaving exactly one such row) instead of duplicating it; the
whole database state is unchanged by the second pass. -/
theorem add_track_rescan_idempotent (env : ScanEnv) (f : MusicFile)
    (a : TrackArgs) (db : DB) (h : track_args env f = some a) :
    (a.track_id = generate_id (pathStr f) ∧ a.file_path = pathStr f ∧
      a.artist_id = generate_id a.artist ∧
      a.album_id = generate_id (a.artist ++ '-' :: a.album)) ∧
    addTrackF (addTrackF db a) a = addTrackF db a ∧
    ((addTrackF db a).tracks.filter (fun r => r.id == a.track_id)).length = 1 := by
  refine ⟨?_, addTrackF_idem db a, ?_⟩
  · cases henv : env.audio f with
    | corrupt => rw [track_args, henv] at h; exact absurd h (by simp)
    | unreadable => rw [track_args, henv] at h; exact absurd h (by simp)
    | ok tags d =>
      rw [track_args, henv] at h
      simp only [Option.some.injEq] at h
      subst h
      exact ⟨rfl, rfl, rfl, rfl⟩
  · rw [tracks_addTrackF]
    exact upsert_track_count_one db.tracks a

/-- Environment for the C1 witness: one readable file with title and
artist tags. -/
def c1Env : ScanEnv :=
  ⟨fun _ => AudioFile.ok
      { title := some "T".toList, artist := some "A".toList } 1000,
    fun _ => none, fun _ => false, fun _ => none, fun _ => false⟩

/-- File for the C1 witness. -/
def c1File : MusicFile := ⟨"m".toList, "song".toList, ".mp3".toList⟩

/-- Record derived from the C1 witness file. -/
def c1Args : TrackArgs := (track_args c1Env c1File).getD default

/-- C1 witness: the idempotence statement at a concrete file and
environment, starting from the empty database. -/
theorem add_track_rescan_idempotent_witness :
    track_args c1Env c1File = some c1Args ∧
    addTrackF (addTrackF emptyDB c1Args) c1Args = addTrackF emptyDB c1Args ∧
    ((addTrackF emptyDB c1Args).tracks.filter
      (fun r => r.id == c1Args.track_id)).length = 1 :=
  ⟨rfl,
   (add_track_rescan_idempotent c1Env c1File c1Args emptyDB rfl).2.1,
   (add_track_rescan_idempotent c1Env c1File c1Args emptyDB rfl).2.2⟩

theorem dictGet_head (k : List Char) (v : MusicFile)
    (m : List (List Char × MusicFile)) : dictGet ((k, v) :: m) k = some v := by
  simp [dictGet, List.find?]

/-- C4: scanning a directory holding track.mp3 and its sibling
track_enhanced.mp3 yields exactly one catalog row - the one for track.mp3,
flagged with the enhanced variant and carrying the enhanced file's path -
and, in general, files whose stem contains the enhanced marker never
produce a catalog record of their own. -/
theorem scan_enhanced_sibling (env : ScanEnv) (dirp : List Char)
    (a : TrackArgs)
    (h : track_args env ⟨dirp, "track".toList, ".mp3".toList⟩ = some a) :
    (scan_folder env emptyDB
        [⟨dirp, "track".toList, ".mp3".toList⟩,
          ⟨dirp, "track_enhanced".toList, ".mp3".toList⟩]).tracks =
      [{ newTrackRow a with
          has_enhanced_version := 1,
          enhanced_file_path :=
            some (pathStr ⟨dirp, "track_enhanced".toList, ".mp3".toList⟩) }] ∧
    a.file_path = pathStr ⟨dirp, "track".toList, ".mp3".toList⟩ ∧
    (∀ (env2 : ScanEnv) (db : DB) (files : List MusicFile),
      (∀ f ∈ files, isEnhancedFile f = true) → scan_folder env2 db files = db) := by
  refine ⟨?_, ?_, ?_⟩
  · show (process_file env
        (dictGet [(joinPath dirp ("track".toList),
            ⟨dirp, "track_enhanced".toList, ".mp3".toList⟩)]
          (joinPath dirp ("track".toList)))
        emptyDB ⟨dirp, "track".toList, ".mp3".toList⟩).tracks = _
    rw [dictGet_head]
    simp only [process_file, h]
    simp [updateEnhanced, tracks_addTrackF, insert_or_replace_track,
      newTrackRow, emptyDB]
  · cases henv : env.audio ⟨dirp, "track".toList, ".mp3".toList⟩ with
    | corrupt =>
      rw [track_args, henv] at h; exact absurd h (by simp)
    | unreadable =>
      rw [track_args, henv] at h; exact absurd h (by simp)
    | ok tags d =>
      rw [track_args, henv] at h
      simp only [Option.some.injEq] at h
      subst h
      rfl
  · intro env2 db files hall
    unfold scan_folder
    have hfil : files.filter (fun f => !(isEnhancedFile f)) = [] :=
      List.filter_eq_nil_iff.mpr (fun f hf => by simp [hall f hf])
    rw [hfil]
    rfl

/-- Environment for the C4 witness: track.mp3 is readable, everything else
raises. -/
def c4Env : ScanEnv :=
  ⟨fun f => if f.stem = "track".toList then
      AudioFile.ok { title := some "T".toList, artist := some "A".toList } 1000
    else AudioFile.corrupt,
   fun _ => none, fun _ => false, fun _ => none, fun _ => false⟩

/-- Record derived for the C4 witness file. -/
def c4Args : TrackArgs :=
  (track_args c4Env ⟨"music".toList, "track".toList, ".mp3".toList⟩).getD default

/-- C4 witness: the sibling scenario in a concrete directory. -/
theorem scan_enhanced_sibling_witness :
    track_args c4Env ⟨"music".toList, "track".toList, ".mp3".toList⟩ =
      some c4Args ∧
    (scan_folder c4Env emptyDB
        [⟨"music".toList, "track".toList, ".mp3".toList⟩,
          ⟨"music".toList, "track_enhanced".toList, ".mp3".toList⟩]).tracks =
      [{ newTrackRow c4Args with
          has_enhanced_version := 1,
          enhanced_file_path :=
            some (pathStr
              ⟨"music".toList, "track_enhanced".toList, ".mp3".toList⟩) }] :=
  ⟨rfl, (scan_enhanced_sibling c4Env ("music".toList) c4Args rfl).1⟩

theorem track_args_fail (env : ScanEnv) (f : MusicFile)
    (h : env.audio f = AudioFile.corrupt ∨ env.audio f = AudioFile.unreadable) :
    track_args env f = none := by
  rcases h with h | h <;> rw [track_args, h]

/-- C5: per-file failures never abort the scan - in a directory with one
corrupt or unreadable file and one valid file, the scan completes with
exactly the valid file's catalog row, and inserting a failing standard file
anywhere into a scan leaves the resulting database unchanged (the per-file
handler swallows the failure and the walk continues). -/
theorem scan_tolerates_bad_file (env : ScanEnv) (c v : MusicFile)
    (a : TrackArgs)
    (hbad : env.audio c = AudioFile.corrupt ∨
      env.audio c = AudioFile.unreadable)
    (hcstd : isEnhancedFile c = false)
    (hvstd : isEnhancedFile v = false)
    (hv : track_args env v = some a) :
    (scan_folder env emptyDB [c, v]).tracks = [newTrackRow a] ∧
    a.file_path = pathStr v ∧
    (∀ (pre post : List MusicFile) (db : DB),
      scan_folder env db (pre ++ c :: post) =
        scan_folder env db (pre ++ post)) := by
  have hcnone : track_args env c = none := track_args_fail env c hbad
  refine ⟨?_, ?_, ?_⟩
  · unfold scan_folder buildEnhancedMap
    simp only [List.foldl_cons, List.foldl_nil, List.filter_cons,
      List.filter_nil, hcstd, hvstd, Bool.not_false, if_pos, ite_true,
      Bool.false_eq_true, if_false]
    simp only [process_file, hcnone, hv]
    simp [dictGet, List.find?, tracks_addTrackF, insert_or_replace_track,
      emptyDB]
  · cases henv : env.audio v with
    | corrupt =>
      rw [track_args, henv] at hv; exact absurd hv (by simp)
    | unreadable =>
      rw [track_args, henv] at hv; exact absurd hv (by simp)
    | ok tags d =>
      rw [track_args, henv] at hv
      simp only [Option.some.injEq] at hv
      subst hv
      rfl
  · intro pre post db
    unfold scan_folder
    have hmap : buildEnhancedMap (pre ++ c :: post) =
        buildEnhancedMap (pre ++ post) := by
      unfold buildEnhancedMap
      rw [List.foldl_append, List.foldl_append, List.foldl_cons]
      simp [hcstd]
    rw [hmap]
    have hfilc : (pre ++ c :: post).filter (fun f => !(isEnhancedFile f)) =
        pre.filter (fun f => !(isEnhancedFile f)) ++
          c :: post.filter (fun f => !(isEnhancedFile f)) := by
      rw [List.filter_append, List.filter_cons]
      simp [hcstd]
    rw [hfilc, List.filter_append, List.foldl_append, List.foldl_append,
      List.foldl_cons]
    congr 1
    simp [process_file, hcnone]

/-- Environment for the C5 witness: good.mp3 is readable, bad.mp3 is
corrupt. -/
def c5Env : ScanEnv :=
  ⟨fun f => if f.stem = "good".toList then
      AudioFile.ok { title := some "T".toList, artist := some "A".toList } 500
    else AudioFile.corrupt,
   fun _ => none, fun _ => false, fun _ => none, fun _ => false⟩

/-- Record derived for the C5 witness file. -/
def c5Args : TrackArgs :=
  (track_args c5Env ⟨"music".toList, "good".toList, ".mp3".toList⟩).getD default

/-- C5 witness: a concrete directory with one corrupt and one valid
file scans to exactly the valid record. -/
theorem scan_tolerates_bad_file_witness :
    track_args c5Env ⟨"music".toList, "good".toList, ".mp3".toList⟩ =
      some c5Args ∧
    (scan_folder c5Env emptyDB
        [⟨"music".toList, "bad".toList, ".mp3".toList⟩,
          ⟨"music".toList, "good".toList, ".mp3".toList⟩]).tracks =
      [newTrackRow c5Args] :=
  ⟨rfl,
   (scan_tolerates_bad_file c5Env
      ⟨"music".toList, "bad".toList, ".mp3".toList⟩
      ⟨"music".toList, "good".toList, ".mp3".toList⟩
      c5Args (Or.inl rfl) rfl rfl rfl).1⟩

theorem truthy_of_get_tag_val (raw : Option (List Char)) (ar : List Char)
    (h : get_tag_val raw = some ar) : truthy (some ar) = true := by
  unfold get_tag_val at h
  cases raw with
  | none => exact absurd h (by simp)
  | some v =>
    simp only at h
    split at h
    · exact absurd h (by simp)
    · rename_i hne
      have hv : pyStrip v = ar := Option.some.inj h
      subst hv
      cases hps : pyStrip v with
      | nil => exact absurd hps hne
      | cons x xs => rfl

/-- C6 counterexample: tag artist "Some Music" contains the keyword
"music", but the filename "JustSong" parses to no artist, so the override
keeps the tag artist - the final artist is not the filename-parsed value
the claim demands unconditionally. -/
theorem channel_override_counterexample :
    get_tag_val (some ("Some Music".toList)) = some ("Some Music".toList) ∧
    looks_like_channel ("Some Music".toList) = true ∧
    (parse_filename ("JustSong".toList)).artist = none ∧
    Option.map TrackArgs.artist
        (track_args
          ⟨fun _ => AudioFile.ok
              { title := some "T".toList,
                artist := some "Some Music".toList } 0,
            fun _ => none, fun _ => false, fun _ => none, fun _ => false⟩
          ⟨"m".toList, "JustSong".toList, ".mp3".toList⟩) =
      some ("Some Music".toList) := by
  decide

/-- C6 amended: when the tag-derived artist is nonempty and contains a
channel keyword (case-insensitive substring), and the filename parser
yields a truthy artist, the record's final artist is the filename-parsed
artist; when the parser yields none the tag artist is kept. -/
theorem channel_override (env : ScanEnv) (f : MusicFile) (tags : Tags)
    (d : Nat) (ar : List Char)
    (henv : env.audio f = AudioFile.ok tags d)
    (har : get_tag_val tags.artist = some ar)
    (hkw : looks_like_channel ar = true)
    (hparsed : truthy (parse_filename f.stem).artist = true) :
    Option.map TrackArgs.artist (track_args env f) =
      some ((parse_filename f.stem).artist.getD []) := by
  have htruthy : truthy (some ar) = true := truthy_of_get_tag_val _ _ har
  rw [track_args, henv]
  simp only [har, htruthy, Option.map_some]
  simp [htruthy, hkw, hparsed, ite_self]

/-- Tag record for the C6 witness. -/
def c6wTags : Tags :=
  { title := some "Cool Song".toList,
    artist := some "Some Channel Music".toList }

/-- Environment for the C6 witness. -/
def c6wEnv : ScanEnv :=
  ⟨fun _ => AudioFile.ok c6wTags 0,
    fun _ => none, fun _ => false, fun _ => none, fun _ => false⟩

/-- File for the C6 witness: stem "Some Channel Music - Cool Song". -/
def c6wFile : MusicFile :=
  ⟨"m".toList, "Some Channel Music - Cool Song".toList, ".mp3".toList⟩

/-- C6 witness: the override fires on the spec's example - tag artist
"Some Channel Music" with that filename - and the record's artist is the
filename-parsed value. -/
theorem channel_override_witness :
    Option.map TrackArgs.artist (track_args c6wEnv c6wFile) =
      some ((parse_filename c6wFile.stem).artist.getD []) ∧
    (parse_filename c6wFile.stem).artist.getD [] =
      "Some Channel Music".toList :=
  ⟨channel_override c6wEnv c6wFile c6wTags 0
      ("Some Channel Music".toList) rfl rfl (by decide) (by decide),
   by decide⟩
